import Mathlib

/-!
Verification development for the Tele2 messaging relay server.

The Go source (main.go and group.go) is shallowly embedded below:
SQL tables become Lean lists of row structures, the in-memory client
registry becomes an association list, and each handler becomes a pure
function from server state (plus the inputs the handler reads) to the
new state together with the list of frames it writes to sessions.
Randomness (`generateShortID`) and the clock (`time.Now`) are threaded
in as explicit parameters (`gen`, `now`).
-/

/-- Chat content, Go `interface{}`: either a plain string or a structured
object (`map[string]interface{}`); for the structured form the server
only ever inspects the optional `text` field, which is what `obj` carries. -/
inductive MsgContent where
  | str (s : String)
  | obj (text : Option String)
  deriving DecidableEq, Repr

/-- Embeds `getMessageContentString` (main.go:163-175): strings pass
through, objects yield their `text` field or the empty string. -/
def getMessageContentString : MsgContent → String
  | .str s => s
  | .obj (some t) => t
  | .obj none => ""

/-- Go interface equality `msg.Content == "x"` used in `deliverMessage`:
true only when the content is the literal string, never for an object. -/
def contentIsString (c : MsgContent) (s : String) : Bool :=
  match c with
  | .str t => t == s
  | .obj _ => false

/-- Serialization of content for persistence (the switch in `storeMessage`
and `handleGroupMessage`): strings pass through, objects become their
JSON encoding (modelled on the `text` field carried by `obj`). -/
def contentToStoreString : MsgContent → String
  | .str s => s
  | .obj (some t) => "\x7b\"text\":\"" ++ t ++ "\"\x7d"
  | .obj none => "\x7b\x7d"

/-- The `Message` struct (main.go:52-62); `replyTo` is carried in its
serialized form, which is all the server does with it. -/
structure Msg where
  id : String
  fromId : String
  toId : String
  content : MsgContent
  timestamp : Nat
  delivered : Bool
  readStatus : Bool
  status : String
  replyTo : Option String
  deriving DecidableEq, Repr

/-- A row of the `messages` table (main.go:185-196). -/
structure MsgRow where
  id : String
  from_id : String
  to_id : String
  content : String
  timestamp : Nat
  delivered : Bool
  read_status : Bool
  status : String
  reply_to : Option String
  deriving DecidableEq, Repr

/-- The `Client` struct (main.go:65-69); `handle` models the identity of
the `*websocket.Conn` pointer. -/
structure Client where
  id : String
  handle : Nat
  isOnline : Bool
  deriving DecidableEq, Repr

/-- The global `clients` map, as an association list with unique keys. -/
abbrev Registry := List (String × Client)

/-- Go map read `clients[uid]`. -/
def lookupClient (reg : Registry) (uid : String) : Option Client :=
  (reg.find? (fun p => p.1 == uid)).map Prod.snd

/-- A row of the `groups` table (group.go). -/
structure GroupRow where
  id : String
  name : String
  description : String
  created_by : String
  deriving DecidableEq, Repr

/-- A row of the `group_members` table; primary key `(group_id, user_id)`. -/
structure MemberRow where
  group_id : String
  user_id : String
  role : String
  joined_at : Nat
  is_muted : Bool
  is_banned : Bool
  deriving DecidableEq, Repr

/-- A row of the `group_messages` table; `read_by` is the decoded JSON list. -/
structure GroupMsgRow where
  id : String
  group_id : String
  from_id : String
  content : String
  timestamp : Nat
  delivered : Bool
  read_by : List String
  status : String
  reply_to : Option String
  deriving DecidableEq, Repr

/-- The `GroupNotification` struct; metadata as string key/value pairs. -/
structure GroupNotification where
  id : String
  groupId : String
  kind : String
  message : String
  timestamp : Nat
  metadata : List (String × String)
  deriving DecidableEq, Repr

/-- One frame written by the server onto some session. -/
inductive OutFrame where
  | chat (m : Msg)
  | signaling (t fromId toId : String)
  | notification (groupId : String) (n : GroupNotification)
  | groupDisconnect (groupId reason : String)
  deriving DecidableEq, Repr

/-- A server-to-session write: recipient endpoint id paired with the frame. -/
abbrev Write := String × OutFrame

/-- The whole mutable server state: registry plus the four store tables. -/
structure ServerState where
  clients : Registry
  messages : List MsgRow
  groups : List GroupRow
  groupMembers : List MemberRow
  groupMessages : List GroupMsgRow
  deriving DecidableEq, Repr

/-- Embeds `updateMessageStatus` (main.go:625-636): an UPDATE of the two
flag columns on every row whose id matches (at most one, under the
primary key). -/
def updateMessageStatus (store : List MsgRow) (messageID : String)
    (delivered readFlag : Bool) : List MsgRow :=
  store.map fun row =>
    if row.id == messageID then
      { row with delivered := delivered, read_status := readFlag }
    else row

/-- Persisted form of an envelope, as built by `storeMessage`. -/
def msgToRow (m : Msg) : MsgRow :=
  { id := m.id, from_id := m.fromId, to_id := m.toId
    content := contentToStoreString m.content, timestamp := m.timestamp
    delivered := m.delivered, read_status := m.readStatus
    status := m.status, reply_to := m.replyTo }

/-- Embeds `storeMessage` (main.go:681-722): a plain INSERT into a table
whose primary key is `id`; on a duplicate id SQLite reports a constraint
error, which the Go code logs and swallows, so the insert is a no-op. -/
def storeMessage (store : List MsgRow) (m : Msg) : List MsgRow :=
  if store.any (fun row => row.id == m.id) then store
  else store ++ [msgToRow m]

/-- The synthesized delivery auto-receipt (main.go:652-660 and 579-587). -/
def deliveryConfirmation (now : Nat) (m : Msg) : Msg :=
  { id := "delivery_" ++ m.id, fromId := m.toId, toId := m.fromId
    content := .str "delivered", timestamp := now
    delivered := true, readStatus := false, status := "delivered"
    replyTo := none }

/-- Embeds `deliverMessage` (main.go:638-679). Returns whether delivery
succeeded, the (possibly updated) messages table, and the writes made. -/
def deliverMessage (now : Nat) (reg : Registry) (store : List MsgRow)
    (m : Msg) : Bool × List MsgRow × List Write :=
  match lookupClient reg m.toId with
  | some recipient =>
    if recipient.isOnline then
      let w0 : List Write := [(m.toId, .chat m)]
      let w1 : List Write :=
        if !(contentIsString m.content "delivered")
            && !(contentIsString m.content "read") then
          match lookupClient reg m.fromId with
          | some _ => [(m.fromId, .chat (deliveryConfirmation now m))]
          | none => []
        else []
      let store' :=
        if contentIsString m.content "read" then
          updateMessageStatus store m.id true true
        else store
      (true, store', w0 ++ w1)
    else (false, store, [])
  | none => (false, store, [])

/-- The system error envelope built in `handleGroupMessage` (group.go:660-666):
only ID, Content, FromID and ToID are set; everything else is a zero value. -/
def systemErrorMsg (m : Msg) (err : String) : Msg :=
  { id := "error_" ++ m.id, fromId := "system", toId := m.fromId
    content := .str err, timestamp := 0
    delivered := false, readStatus := false, status := "", replyTo := none }

/-- The chat envelope fanned out to each group member (group.go:755-765). -/
def groupFanoutMsg (gid : String) (m : Msg) (memberID : String) : Msg :=
  { id := m.id, fromId := m.fromId, toId := gid, content := m.content
    timestamp := m.timestamp, delivered := true
    readStatus := memberID == m.fromId, status := "delivered"
    replyTo := m.replyTo }

/-- Embeds `handleGroupMessage` (group.go:639-779): membership and
mute/ban gate, INSERT of the group message (duplicate primary key aborts
with nothing broadcast), then fan-out to every non-banned online member. -/
def handleGroupMessage (st : ServerState) (m : Msg) : ServerState × List Write :=
  let gid := m.toId
  match st.groupMembers.find?
      (fun row => row.group_id == gid && row.user_id == m.fromId) with
  | none =>
    match lookupClient st.clients m.fromId with
    | some _ =>
      (st, [(m.fromId, .chat (systemErrorMsg m "You are not a member of this group"))])
    | none => (st, [])
  | some row =>
    if row.is_muted || row.is_banned then
      match lookupClient st.clients m.fromId with
      | some _ =>
        let err := if row.is_muted then "You are muted in this group"
                   else "You are not a member of this group"
        (st, [(m.fromId, .chat (systemErrorMsg m err))])
      | none => (st, [])
    else
      if st.groupMessages.any (fun g => g.id == m.id) then (st, [])
      else
        let newRow : GroupMsgRow :=
          { id := m.id, group_id := gid, from_id := m.fromId
            content := contentToStoreString m.content, timestamp := m.timestamp
            delivered := true, read_by := [m.fromId], status := m.status
            reply_to := m.replyTo }
        let memberIDs :=
          (st.groupMembers.filter
            (fun row => row.group_id == gid && !row.is_banned)).map (·.user_id)
        let ws := memberIDs.filterMap fun mid =>
          match lookupClient st.clients mid with
          | some c =>
            if c.isOnline then some ((mid, OutFrame.chat (groupFanoutMsg gid m mid)) : Write)
            else none
          | none => none
        ({ st with groupMessages := st.groupMessages ++ [newRow] }, ws)

/-- Field defaulting in the read loop (main.go:391-399): fill in the
timestamp when zero and default the status to `sent` when empty. -/
def setDefaults (now : Nat) (m : Msg) : Msg :=
  let m1 := if m.timestamp == 0 then { m with timestamp := now } else m
  if m1.status == "" then { m1 with status := "sent" } else m1

/-- Embeds the chat-envelope dispatch of the read loop (main.go:391-444):
group hand-off, then the switch on the canonical content string. -/
def routeChat (now : Nat) (st : ServerState) (m0 : Msg) : ServerState × List Write :=
  let m := setDefaults now m0
  if m.toId.startsWith "GROUP_" then handleGroupMessage st m
  else
    let c := getMessageContentString m.content
    if c == "delivered" then
      let store1 := updateMessageStatus st.messages m.toId true false
      let m' := { m with status := "delivered" }
      let res := deliverMessage now st.clients store1 m'
      let store3 := if res.1 then res.2.1 else storeMessage res.2.1 m'
      ({ st with messages := store3 }, res.2.2)
    else if c == "read" then
      let store1 := updateMessageStatus st.messages m.toId true true
      let m' := { m with status := "read" }
      let res := deliverMessage now st.clients store1 m'
      let store3 := if res.1 then res.2.1 else storeMessage res.2.1 m'
      ({ st with messages := store3 }, res.2.2)
    else if c == "status_update" then (st, [])
    else
      let res := deliverMessage now st.clients st.messages m
      let store3 := if res.1 then res.2.1 else storeMessage res.2.1 m
      ({ st with messages := store3 }, res.2.2)

/-- One inbound frame as classified by the read loop (main.go:370-387):
a frame carrying `messageType == "webrtc_signaling"`, or a chat envelope. -/
inductive Frame where
  | signaling (t fromId toId : String)
  | chat (m : Msg)
  deriving DecidableEq, Repr

/-- One iteration of the read loop (main.go:362-445). For a signaling
frame the loop logs and `continue`s: the forwarding code is an elided
comment at main.go:376, so nothing is written and nothing is stored. -/
def handleFrame (now : Nat) (st : ServerState) (f : Frame) : ServerState × List Write :=
  match f with
  | .signaling _ _ _ => (st, [])
  | .chat m => routeChat now st m

/-- Embeds `handleSignalingMessage` (main.go:460-473), which would forward
the envelope verbatim to the recipient session; no call site exists. -/
def handleSignalingMessage (reg : Registry) (t fromId toId : String) : List Write :=
  match lookupClient reg toId with
  | some _ => [(toId, .signaling t fromId toId)]
  | none => []

/-- Registration at the top of `handleWebSocket` (main.go:330-339):
`clients[userID] = client` overwrites any prior entry. -/
def registerClient (reg : Registry) (uid : String) (h : Nat) : Registry :=
  (uid, { id := uid, handle := h, isOnline := true }) ::
    reg.filter (fun p => !(p.1 == uid))

/-- The cleanup when a read loop exits (main.go:448-453): it checks only
that some entry exists under the id, then deletes it; the session handle
is never compared. -/
def cleanupClient (reg : Registry) (uid : String) : Registry :=
  match lookupClient reg uid with
  | some _ => reg.filter (fun p => !(p.1 == uid))
  | none => reg

/-- Ascending-timestamp ordering used by `ORDER BY timestamp ASC`. -/
def byTimestamp (a b : MsgRow) : Prop := a.timestamp ≤ b.timestamp

instance : DecidableRel byTimestamp := fun a b => Nat.decLe a.timestamp b.timestamp

instance : IsTotal MsgRow byTimestamp := ⟨fun a b => Nat.le_total a.timestamp b.timestamp⟩

instance : IsTrans MsgRow byTimestamp := ⟨fun _ _ _ h h' => Nat.le_trans h h'⟩

/-- The WHERE clause `from_id = ? OR to_id = ?` of the history queries. -/
def involvesUser (uid : String) (row : MsgRow) : Bool :=
  row.from_id == uid || row.to_id == uid

/-- The scan shape shared by `sendAllMessages` and `handleGetAllMessages`:
the SELECT omits the `status` column, so the Go `Message` keeps its zero
value there, the empty string. -/
def rowToMsg (row : MsgRow) : Msg :=
  { id := row.id, fromId := row.from_id, toId := row.to_id
    content := .str row.content, timestamp := row.timestamp
    delivered := row.delivered, readStatus := row.read_status
    status := "", replyTo := row.reply_to }

/-- The writes one result row of `sendAllMessages` produces (main.go:536-597):
the row itself to the syncing user, then, when the row is an undelivered
message addressed to that user, a delivery confirmation to its sender if
that sender has a registry entry. -/
def syncWritesFor (now : Nat) (reg : Registry) (uid : String) (row : MsgRow) :
    List Write :=
  (uid, .chat (rowToMsg row)) ::
    (if row.to_id == uid && !row.delivered then
      match lookupClient reg row.from_id with
      | some _ => [(row.from_id, .chat (deliveryConfirmation now (rowToMsg row)))]
      | none => []
    else [])

/-- Embeds `sendAllMessages` (main.go:494-605): the history query ordered
by ascending timestamp drives the write sequence, and every undelivered
row addressed to the user is flag-mutated to delivered in one
transaction (the per-row UPDATE has `WHERE id = ? AND to_id = ? AND
delivered = false`, and every such row is in the result set). -/
def sendAllMessages (now : Nat) (st : ServerState) (uid : String) :
    ServerState × List Write :=
  match lookupClient st.clients uid with
  | none => (st, [])
  | some _ =>
    let rows := List.insertionSort byTimestamp (st.messages.filter (involvesUser uid))
    let ws := (rows.map (syncWritesFor now st.clients uid)).flatten
    let messages' := st.messages.map fun row =>
      if row.to_id == uid && !row.delivered then { row with delivered := true } else row
    ({ st with messages := messages' }, ws)

/-- Embeds `handleGetAllMessages` (main.go:252-300): the history endpoint
returns the user's rows in ascending timestamp order, scanned without
the `status` column. -/
def handleGetAllMessages (st : ServerState) (uid : String) : List Msg :=
  (List.insertionSort byTimestamp (st.messages.filter (involvesUser uid))).map rowToMsg

/-- One step of `applyOp`: the message-store mutations the direct-message
router can perform, per the claim: a read-loop frame (receipts, regular
chat, signaling, group hand-off) or the initial-sync flag mutation. -/
inductive RouterOp where
  | frame (now : Nat) (f : Frame)
  | initialSync (now : Nat) (uid : String)
  deriving Repr

/-- State transition of one router operation. -/
def applyOp (st : ServerState) : RouterOp → ServerState
  | .frame now f => (handleFrame now st f).1
  | .initialSync now uid => (sendAllMessages now st uid).1

/-- Embeds `notifyUser` (group.go:251-272): one `group_notification`
frame to the user, if registered and online. -/
def notifyUser (reg : Registry) (uid : String) (n : GroupNotification) :
    List Write :=
  match lookupClient reg uid with
  | some c => if c.isOnline then [(uid, .notification n.groupId n)] else []
  | none => []

/-- Embeds `notifyGroupMembers` (group.go:792-820) against an explicit
members table: a `group_notification` frame to every non-banned member
of the group that is registered and online. -/
def notifyGroupMembersCore (reg : Registry) (members : List MemberRow)
    (gid : String) (n : GroupNotification) : List Write :=
  ((members.filter (fun r => r.group_id == gid && !r.is_banned)).map
      (·.user_id)).filterMap fun mid =>
    match lookupClient reg mid with
    | some c => if c.isOnline then some ((mid, OutFrame.notification gid n) : Write)
                else none
    | none => none

/-- Embeds `disconnectUserFromGroup` (group.go:822-835). -/
def disconnectUserFromGroup (reg : Registry) (uid gid : String) : List Write :=
  match lookupClient reg uid with
  | some c => if c.isOnline then [(uid, .groupDisconnect gid "banned")] else []
  | none => []

/-- The UPDATE of a single member row keyed by `(group_id, user_id)`
shared by all admin actions. -/
def memberUpdate (members : List MemberRow) (gid uid : String)
    (f : MemberRow → MemberRow) : List MemberRow :=
  members.map fun r => if r.group_id == gid && r.user_id == uid then f r else r

/-- The `AdminAction` request body (group.go:59-66). -/
structure AdminAction where
  kind : String
  groupID : String
  targetUserID : String
  performedBy : String
  reason : String
  deriving DecidableEq, Repr

/-- The row mutation each admin action performs (the switch in
`handleAdminAction`, group.go:530-565); `none` for an unknown action. -/
def adminActionField (kind : String) : Option (MemberRow → MemberRow) :=
  if kind == "mute" then some fun r => { r with is_muted := true }
  else if kind == "unmute" then some fun r => { r with is_muted := false }
  else if kind == "ban" then some fun r => { r with is_banned := true }
  else if kind == "unban" then some fun r => { r with is_banned := false }
  else if kind == "promote" then some fun r => { r with role := "admin" }
  else if kind == "demote" then some fun r => { r with role := "member" }
  else none

/-- The `admin_action` notification (group.go:572-579). -/
def adminActionNotification (gen : Nat → String) (now : Nat) (gid : String)
    (a : AdminAction) : GroupNotification :=
  { id := gen 0, groupId := gid, kind := "admin_action"
    message := a.kind ++ " " ++ a.targetUserID, timestamp := now
    metadata := [("action", a.kind), ("userId", a.targetUserID)] }

/-- Embeds `handleAdminAction` (group.go:510-582): 403 unless the
performer holds the admin role in the group, 400 on an unknown action;
otherwise the single-row UPDATE, the ban-disconnect side effect, and the
notification to the (post-update) non-banned members. Returns the new
state, the writes, and the HTTP status. -/
def handleAdminAction (gen : Nat → String) (now : Nat) (st : ServerState)
    (gid : String) (a : AdminAction) : ServerState × List Write × Nat :=
  let isAdmin :=
    match st.groupMembers.find?
        (fun r => r.group_id == gid && r.user_id == a.performedBy) with
    | some r => r.role == "admin"
    | none => false
  if !isAdmin then (st, [], 403)
  else
    match adminActionField a.kind with
    | none => (st, [], 400)
    | some f =>
      let members' := memberUpdate st.groupMembers gid a.targetUserID f
      let dws := if a.kind == "ban"
                 then disconnectUserFromGroup st.clients a.targetUserID gid
                 else []
      let st' := { st with groupMembers := members' }
      (st', dws ++ notifyGroupMembersCore st.clients members' gid
              (adminActionNotification gen now gid a), 200)

/-- Embeds `handleLeaveGroup` (group.go:585-635): the sole-admin guard
(COUNT of admin rows is one and the leaver's row carries the admin
role), then the DELETE of the member row and the `member_left`
notification. -/
def handleLeaveGroup (gen : Nat → String) (now : Nat) (st : ServerState)
    (gid uid : String) : ServerState × List Write × Nat :=
  let adminCount :=
    (st.groupMembers.filter (fun r => r.group_id == gid && r.role == "admin")).length
  let isAdmin :=
    match st.groupMembers.find?
        (fun r => r.group_id == gid && r.user_id == uid) with
    | some r => r.role == "admin"
    | none => false
  if adminCount == 1 && isAdmin then (st, [], 400)
  else
    let members' := st.groupMembers.filter
      (fun r => !(r.group_id == gid && r.user_id == uid))
    let st' := { st with groupMembers := members' }
    (st', notifyGroupMembersCore st.clients members' gid
        { id := gen 0, groupId := gid, kind := "member_left"
          message := uid ++ " left the group", timestamp := now
          metadata := [("userId", uid)] }, 200)

/-- The `ORDER BY gm.role DESC, gm.joined_at ASC` of the member listing,
with SQLite string comparison rendered through `compare`. -/
def byRoleDescJoinedAsc (a b : MemberRow) : Prop :=
  compare a.role b.role = Ordering.gt ∨
    (compare a.role b.role = Ordering.eq ∧ a.joined_at ≤ b.joined_at)

instance : DecidableRel byRoleDescJoinedAsc := fun a b => by
  unfold byRoleDescJoinedAsc; infer_instance

/-- The `GroupMemberWithDetails` rows the member listing returns
(group.go:38-43): the member row, the user id echoed as username, and
an online flag that is mere presence in the registry. -/
structure MemberDetails where
  row : MemberRow
  username : String
  isOnline : Bool
  deriving DecidableEq, Repr

/-- Embeds `handleGetGroupMembers` (group.go:309-367): 404 when the group
row is absent; otherwise every `group_members` row of the group — with
no ban filter — ordered by role descending then join time. -/
def handleGetGroupMembers (st : ServerState) (gid : String) :
    Nat × List MemberDetails :=
  if !(st.groups.any (fun g => g.id == gid)) then (404, [])
  else
    let rows := List.insertionSort byRoleDescJoinedAsc
      (st.groupMembers.filter (fun r => r.group_id == gid))
    (200, rows.map fun r =>
      { row := r, username := r.user_id
        isOnline := (lookupClient st.clients r.user_id).isSome })

/-- The request body of the add-members endpoint (group.go:438-441). -/
structure AddMembersReq where
  userIds : List String
  addedBy : String
  deriving DecidableEq, Repr

/-- One iteration of the add-members loop (group.go:465-501): skip empty
ids; `INSERT OR IGNORE` the member row; notify the added user and then
the (post-insert) non-banned group members. The accumulator carries the
members table, the writes so far, and the notification-id counter. -/
def addMembersStep (gen : Nat → String) (now : Nat) (reg : Registry)
    (gid gname addedBy : String)
    (acc : List MemberRow × List Write × Nat) (uid : String) :
    List MemberRow × List Write × Nat :=
  if uid == "" then acc
  else
    let members := acc.1
    let members' :=
      if members.any (fun r => r.group_id == gid && r.user_id == uid) then members
      else members ++ [{ group_id := gid, user_id := uid, role := "member"
                         joined_at := now, is_muted := false, is_banned := false }]
    let n1 : GroupNotification :=
      { id := gen acc.2.2, groupId := gid, kind := "member_added"
        message := "You were added to group " ++ gname, timestamp := now
        metadata := [("userId", uid), ("groupName", gname), ("addedBy", addedBy)] }
    let n2 : GroupNotification :=
      { id := gen (acc.2.2 + 1), groupId := gid, kind := "member_added"
        message := uid ++ " was added to the group", timestamp := now
        metadata := [("userId", uid)] }
    (members',
      acc.2.1 ++ notifyUser reg uid n1 ++ notifyGroupMembersCore reg members' gid n2,
      acc.2.2 + 2)

/-- Embeds `handleAddGroupMembers` (group.go:436-507): the admin lookup
is performed but its result is unused (the 403 branch is commented out
in the source), every non-empty listed id is inserted with
`INSERT OR IGNORE` and notified, and the response is the member listing
(so the status is 200, or 404 for a missing group — never 403). -/
def handleAddGroupMembers (gen : Nat → String) (now : Nat) (st : ServerState)
    (gid : String) (req : AddMembersReq) :
    ServerState × List Write × (Nat × List MemberDetails) :=
  let gname := match st.groups.find? (fun g => g.id == gid) with
    | some g => g.name
    | none => ""
  let res := req.userIds.foldl (addMembersStep gen now st.clients gid gname req.addedBy)
    (st.groupMembers, [], 0)
  let st' := { st with groupMembers := res.1 }
  (st', res.2.1, handleGetGroupMembers st' gid)

/-- Uniqueness of the `messages` primary key, maintained by SQLite. -/
def uniqueIds (store : List MsgRow) : Prop :=
  store.Pairwise (fun a b => a.id ≠ b.id)

/-- Uniqueness of the `group_members` primary key `(group_id, user_id)`. -/
def uniqueMemberKeys (members : List MemberRow) : Prop :=
  members.Pairwise (fun a b => ¬(a.group_id = b.group_id ∧ a.user_id = b.user_id))

/-- Receipt in the sense of the protocol glossary: an envelope whose
canonical content string is `delivered` or `read`. -/
def isReceipt (m : Msg) : Bool :=
  getMessageContentString m.content == "delivered"
    || getMessageContentString m.content == "read"

/-- The direct messages a write sequence carries to the session of `uid`:
chat frames addressed to `uid` that are not receipts. -/
def directMessagesTo (uid : String) : List Write → List Msg
  | [] => []
  | w :: ws =>
    match w.2 with
    | .chat m =>
      if w.1 == uid && !(isReceipt m) then m :: directMessagesTo uid ws
      else directMessagesTo uid ws
    | _ => directMessagesTo uid ws

/-- Presence of a registered online session, as the handlers test it. -/
def isOnlineIn (reg : Registry) (uid : String) : Bool :=
  match lookupClient reg uid with
  | some c => c.isOnline
  | none => false

/-- Row transformations that keep the primary key. -/
def idPreserving (f : MsgRow → MsgRow) : Prop := ∀ r, (f r).id = r.id

/-- Row transformations that never clear the delivered flag. -/
def deliveredPreserving (f : MsgRow → MsgRow) : Prop :=
  ∀ r, r.delivered = true → (f r).delivered = true

/-- The per-row function of `updateMessageStatus`. -/
def updFun (i : String) (d rd : Bool) : MsgRow → MsgRow :=
  fun row => if row.id == i then { row with delivered := d, read_status := rd } else row

/-- The group has a membership row holding the admin role. -/
def hasAdmin (members : List MemberRow) (gid : String) : Prop :=
  ∃ r ∈ members, r.group_id = gid ∧ r.role = "admin"

/-! Concrete scenario states used by the claim theorems. -/

/-- Scenario state for the read-receipt claim: A and B online, and the
delivered-but-unread row for message `m1` from A to B. -/
def c1State : ServerState :=
  { clients := [("A", { id := "A", handle := 1, isOnline := true }),
                ("B", { id := "B", handle := 2, isOnline := true })]
    messages := [{ id := "m1", from_id := "A", to_id := "B", content := "hi"
                   timestamp := 100, delivered := true, read_status := false
                   status := "sent", reply_to := none }]
    groups := [], groupMembers := [], groupMessages := [] }

/-- The read-receipt envelope B sends for `m1`, exactly as the client
builds it: `toId` is the original sender A, not the message id. -/
def c1ReadReceipt : Msg :=
  { id := "read_m1", fromId := "B", toId := "A", content := .str "read"
    timestamp := 200, delivered := true, readStatus := true, status := "read"
    replyTo := none }

/-- Store with a single fully-read row `m1`, used to refute pair
monotonicity. -/
def c2State : ServerState :=
  { clients := [], groups := [], groupMembers := [], groupMessages := []
    messages := [{ id := "m1", from_id := "A", to_id := "B", content := "hi"
                   timestamp := 100, delivered := true, read_status := true
                   status := "read", reply_to := none }] }

/-- A delivered receipt whose `toId` is the stored message id `m1`. -/
def c2Receipt : Msg :=
  { id := "d1", fromId := "B", toId := "m1", content := .str "delivered"
    timestamp := 50, delivered := false, readStatus := false, status := ""
    replyTo := none }

/-- Group with a sole admin A, used to refute sole-admin preservation. -/
def c3State : ServerState :=
  { clients := [], messages := [], groupMessages := []
    groups := [{ id := "GROUP_X", name := "X", description := "", created_by := "A" }]
    groupMembers := [{ group_id := "GROUP_X", user_id := "A", role := "admin"
                       joined_at := 0, is_muted := false, is_banned := false }] }

/-- The self-demotion of the sole admin. -/
def c3Demote : AdminAction :=
  { kind := "demote", groupID := "GROUP_X", targetUserID := "A"
    performedBy := "A", reason := "" }

/-- Registry with A and B online, used for the signaling claim. -/
def c4State : ServerState :=
  { clients := [("A", { id := "A", handle := 1, isOnline := true }),
                ("B", { id := "B", handle := 2, isOnline := true })]
    messages := [], groups := [], groupMembers := [], groupMessages := [] }

/-- Group `GROUP_Z` with admin A and a banned member C. -/
def c6State : ServerState :=
  { clients := [], messages := [], groupMessages := []
    groups := [{ id := "GROUP_Z", name := "Z", description := "", created_by := "A" }]
    groupMembers :=
      [{ group_id := "GROUP_Z", user_id := "A", role := "admin"
         joined_at := 0, is_muted := false, is_banned := false },
       { group_id := "GROUP_Z", user_id := "C", role := "member"
         joined_at := 1, is_muted := false, is_banned := true }] }

/-- Witness store row for the insert-idempotence claim. -/
def c7wRow : MsgRow :=
  { id := "k1", from_id := "A", to_id := "B", content := "first"
    timestamp := 10, delivered := false, read_status := false
    status := "sent", reply_to := none }

/-- A second envelope reusing the id `k1` with different fields. -/
def c7wMsg : Msg :=
  { id := "k1", fromId := "B", toId := "A", content := .str "second"
    timestamp := 20, delivered := true, readStatus := true, status := "read"
    replyTo := none }

/-- Witness row for delivered-flag monotonicity: already delivered. -/
def c2wRow : MsgRow :=
  { id := "n1", from_id := "A", to_id := "B", content := "hi"
    timestamp := 10, delivered := true, read_status := false
    status := "sent", reply_to := none }

/-- Witness state holding only `c2wRow`. -/
def c2wState : ServerState :=
  { clients := [], messages := [c2wRow], groups := [], groupMembers := []
    groupMessages := [] }

/-- The delivered receipt targeting row `n1` by its id. -/
def c2wReceipt : Msg :=
  { id := "d2", fromId := "B", toId := "n1", content := .str "delivered"
    timestamp := 5, delivered := false, readStatus := false, status := ""
    replyTo := none }

/-- Witness router operation carrying the receipt. -/
def c2wOp : RouterOp := .frame 1 (.chat c2wReceipt)

/-- Witness group with two admins, so a leave is permitted. -/
def c3wState : ServerState :=
  { clients := [], messages := [], groupMessages := []
    groups := [{ id := "GROUP_Y", name := "Y", description := "", created_by := "A" }]
    groupMembers :=
      [{ group_id := "GROUP_Y", user_id := "A", role := "admin"
         joined_at := 0, is_muted := false, is_banned := false },
       { group_id := "GROUP_Y", user_id := "B", role := "admin"
         joined_at := 1, is_muted := false, is_banned := false }] }

/-- The banned membership row of `c6State`, named for the listing witness. -/
def c6BannedRow : MemberRow :=
  { group_id := "GROUP_Z", user_id := "C", role := "member"
    joined_at := 1, is_muted := false, is_banned := true }

/-- Witness state for the add-members claim: the group exists but the
requester `Z` is not a member of it. -/
def c9wState : ServerState :=
  { clients := [], messages := [], groupMembers := [], groupMessages := []
    groups := [{ id := "GROUP_W", name := "W", description := "", created_by := "A" }] }

/-- The add-members request issued by the non-member `Z`. -/
def c9wReq : AddMembersReq := { userIds := ["C"], addedBy := "Z" }

/-- C10. Every message returned by the history endpoint
`GET /api/messages/:userId` carries `status = ""` regardless of the
stored `status` column: the handler's SELECT omits that column, so the
Go zero value survives into the response. -/
theorem c10_history_status_always_empty (st : ServerState) (uid : String) :
    ((handleGetAllMessages st uid).map Msg.status).all (fun s => s == "") = true := by
  simp only [handleGetAllMessages, List.map_map, List.all_eq_true]
  intro s hs
  simp only [List.mem_map, Function.comp] at hs
  obtain ⟨r, _, rfl⟩ := hs
  rfl

theorem countP_le_one {α} (p : α → Bool) {l : List α}
    (h : l.Pairwise (fun a b => p a = true → p b = true → False)) :
    l.countP p ≤ 1 := by
  induction l with
  | nil => simp
  | cons x xs ih =>
    obtain ⟨hx, hxs⟩ := List.pairwise_cons.mp h
    by_cases hpx : p x = true
    · have h0 : xs.countP p = 0 := by
        rw [List.countP_eq_zero]
        intro a ha hpa
        exact hx a ha hpx hpa
      rw [List.countP_cons_of_pos _ _ hpx, h0]
    · rw [List.countP_cons_of_neg _ _ hpx]
      exact ih hxs

/-- C7. Inserting a direct-message record whose id already exists is a
no-op (the prior row is untouched), uniqueness of ids is preserved, and
after any insert exactly one row carries the inserted id. -/
theorem c7_store_insert_idempotent (store : List MsgRow) (m : Msg) :
    ((∃ r ∈ store, r.id = m.id) → storeMessage store m = store)
    ∧ (uniqueIds store → uniqueIds (storeMessage store m))
    ∧ (uniqueIds store →
        (storeMessage store m).countP (fun r => r.id == m.id) = 1) := by
  refine ⟨?_, ?_, ?_⟩
  · rintro ⟨r, hr, hid⟩
    have hany : store.any (fun row => row.id == m.id) = true :=
      List.any_eq_true.mpr ⟨r, hr, by simp [hid]⟩
    simp [storeMessage, hany]
  · intro hu
    unfold storeMessage
    unfold uniqueIds at hu ⊢
    split
    · exact hu
    · next hany =>
      rw [List.pairwise_append]
      refine ⟨hu, by simp, ?_⟩
      intro a ha b hb
      simp only [List.mem_singleton] at hb
      subst hb
      have : ¬ (a.id == m.id) = true := by
        intro hcontra
        exact hany (List.any_eq_true.mpr ⟨a, ha, hcontra⟩)
      simpa [msgToRow] using fun he => this (by simp [he])
  · intro hu
    unfold storeMessage
    split
    · next hany =>
      obtain ⟨a, ha, hpa⟩ := List.any_eq_true.mp hany
      have hpos : 0 < store.countP (fun r => r.id == m.id) :=
        List.countP_pos_iff.mpr ⟨a, ha, hpa⟩
      have hle : store.countP (fun r => r.id == m.id) ≤ 1 := by
        apply countP_le_one
        apply hu.imp
        intro x y hxy hpx hpy
        exact hxy (by
          have hx := eq_of_beq hpx
          have hy := eq_of_beq hpy
          rw [hx, hy])
      omega
    · next hany =>
      have h0 : store.countP (fun r => r.id == m.id) = 0 := by
        rw [List.countP_eq_zero]
        intro a ha hpa
        exact hany (List.any_eq_true.mpr ⟨a, ha, hpa⟩)
      rw [List.countP_append, h0]
      simp [msgToRow]

/-- C6, amended. The list-members endpoint returns every membership row
of an existing group — banned rows included — so a banned member appears
in the result rather than being excluded. -/
theorem c6_member_listing_includes_all_rows (st : ServerState) (gid : String) (r : MemberRow)
    (hg : (st.groups.any (fun g => g.id == gid)) = true)
    (hr : r ∈ st.groupMembers) (hgid : r.group_id = gid) :
    (handleGetGroupMembers st gid).1 = 200
    ∧ ∃ d ∈ (handleGetGroupMembers st gid).2, d.row = r := by
  unfold handleGetGroupMembers
  rw [hg]
  simp only [Bool.not_true, Bool.false_eq_true, if_false]
  refine ⟨by trivial, ?_⟩
  have hmem : r ∈ st.groupMembers.filter (fun x => x.group_id == gid) :=
    List.mem_filter.mpr ⟨hr, by simp [hgid]⟩
  have hsort : r ∈ List.insertionSort byRoleDescJoinedAsc
      (st.groupMembers.filter (fun x => x.group_id == gid)) :=
    ((List.perm_insertionSort byRoleDescJoinedAsc _).mem_iff).mpr hmem
  exact ⟨_, List.mem_map_of_mem _ hsort, rfl⟩

theorem directMessagesTo_append (uid : String) (ws1 ws2 : List Write) :
    directMessagesTo uid (ws1 ++ ws2)
      = directMessagesTo uid ws1 ++ directMessagesTo uid ws2 := by
  induction ws1 with
  | nil => rfl
  | cons w ws ih =>
    obtain ⟨a, f⟩ := w
    cases f <;> simp only [List.cons_append, directMessagesTo] <;>
      first
        | exact ih
        | (split <;> simp [ih])

theorem directMessagesTo_syncWritesFor (now : Nat) (reg : Registry)
    (uid : String) (r : MsgRow) :
    directMessagesTo uid (syncWritesFor now reg uid r)
      = if isReceipt (rowToMsg r) then [] else [rowToMsg r] := by
  unfold syncWritesFor
  have htail : ∀ l : List Write,
      (l = [] ∨ ∃ x m, l = [(x, OutFrame.chat m)] ∧ isReceipt m = true) →
      directMessagesTo uid l = [] := by
    rintro l (rfl | ⟨x, m, rfl, hm⟩)
    · rfl
    · simp [directMessagesTo, hm]
  have hconf :
      directMessagesTo uid
        (if r.to_id == uid && !r.delivered then
          match lookupClient reg r.from_id with
          | some _ => [(r.from_id, .chat (deliveryConfirmation now (rowToMsg r)))]
          | none => []
        else []) = [] := by
    apply htail
    split
    · split
      · right
        exact ⟨_, _, rfl, rfl⟩
      · left; rfl
    · left; rfl
  simp only [directMessagesTo, beq_self_eq_true, Bool.true_and]
  cases hR : isReceipt (rowToMsg r) <;> simp only [hR, Bool.not_false, Bool.not_true] <;>
    simp only [if_true, if_false, hconf] <;> simp

theorem directMessagesTo_flatten (now : Nat) (reg : Registry) (uid : String)
    (rows : List MsgRow) :
    directMessagesTo uid ((rows.map (syncWritesFor now reg uid)).flatten)
      = (rows.filter (fun r => !(isReceipt (rowToMsg r)))).map rowToMsg := by
  induction rows with
  | nil => rfl
  | cons r rs ih =>
    simp only [List.map_cons, List.flatten_cons, directMessagesTo_append,
      directMessagesTo_syncWritesFor, List.filter_cons]
    cases hR : isReceipt (rowToMsg r) <;> simp [hR, ih]

/-- C8. The direct messages written to the syncing user's session by
`sendAllMessages` appear in non-decreasing timestamp order: the history
query orders by timestamp ascending, and the only interleaved writes are
delivery receipts, which are not direct messages. -/
theorem c8_initial_sync_timestamps_monotone (now : Nat) (st : ServerState) (uid : String) :
    List.Pairwise (fun a b : Msg => a.timestamp ≤ b.timestamp)
      (directMessagesTo uid (sendAllMessages now st uid).2) := by
  unfold sendAllMessages
  cases h : lookupClient st.clients uid with
  | none => exact List.Pairwise.nil
  | some c =>
    simp only []
    rw [directMessagesTo_flatten]
    have hs : List.Pairwise byTimestamp
        (List.insertionSort byTimestamp (st.messages.filter (involvesUser uid))) :=
      List.sorted_insertionSort byTimestamp _
    have hf := hs.filter (fun r => !(isReceipt (rowToMsg r)))
    rw [List.pairwise_map]
    exact hf

theorem foldl_preserves {α β : Type} (f : β → α → β) (P : β → Prop)
    (hf : ∀ acc x, P acc → P (f acc x)) :
    ∀ (l : List α) (acc : β), P acc → P (l.foldl f acc) := by
  intro l
  induction l with
  | nil => intro acc h; exact h
  | cons x xs ih => intro acc h; exact ih _ (hf _ _ h)

theorem foldl_establish {α β : Type} (f : β → α → β) (P : β → Prop)
    (hf : ∀ acc x, P acc → P (f acc x)) (x : α) (hx : ∀ acc, P (f acc x)) :
    ∀ (l : List α) (acc : β), x ∈ l → P (l.foldl f acc) := by
  intro l
  induction l with
  | nil => intro _ h; cases h
  | cons y ys ih =>
    intro acc hmem
    rcases List.mem_cons.mp hmem with rfl | h
    · exact foldl_preserves f P hf ys _ (hx acc)
    · exact ih _ h

theorem handleGetGroupMembers_status (st : ServerState) (gid : String) :
    (handleGetGroupMembers st gid).1 = 404 ∨ (handleGetGroupMembers st gid).1 = 200 := by
  unfold handleGetGroupMembers
  split
  · left; rfl
  · right; rfl

theorem handleGetGroupMembers_status_ne (st : ServerState) (gid : String) :
    (handleGetGroupMembers st gid).1 ≠ 403 := by
  rcases handleGetGroupMembers_status st gid with h | h <;> rw [h] <;> decide

theorem addMembersStep_mono (gen : Nat → String) (now : Nat) (reg : Registry)
    (gid gname addedBy : String) (acc : List MemberRow × List Write × Nat)
    (x : String) (p : MemberRow → Bool) (w : Write) :
    (acc.1.any p = true →
      ((addMembersStep gen now reg gid gname addedBy acc x).1.any p) = true)
    ∧ (w ∈ acc.2.1 → w ∈ (addMembersStep gen now reg gid gname addedBy acc x).2.1) := by
  unfold addMembersStep
  split
  · exact ⟨id, id⟩
  · dsimp only
    constructor
    · intro h
      split
      · exact h
      · simp [List.any_append, h]
    · intro h
      exact List.mem_append_left _ (List.mem_append_left _ h)

theorem addMembersStep_inserts (gen : Nat → String) (now : Nat) (reg : Registry)
    (gid gname addedBy : String) (acc : List MemberRow × List Write × Nat)
    (uid : String) (huid : uid ≠ "") :
    ((addMembersStep gen now reg gid gname addedBy acc uid).1.any
      (fun r => r.group_id == gid && r.user_id == uid)) = true := by
  unfold addMembersStep
  rw [if_neg (by simpa using huid)]
  dsimp only
  split
  · next h => exact h
  · simp [List.any_append]

theorem addMembersStep_notifies (gen : Nat → String) (now : Nat) (reg : Registry)
    (gid gname addedBy : String) (acc : List MemberRow × List Write × Nat)
    (uid : String) (huid : uid ≠ "") (hon : isOnlineIn reg uid = true) :
    ∃ n : GroupNotification, n.kind = "member_added" ∧
      (uid, OutFrame.notification gid n) ∈
        (addMembersStep gen now reg gid gname addedBy acc uid).2.1 := by
  unfold addMembersStep
  rw [if_neg (by simpa using huid)]
  refine ⟨{ id := gen acc.2.2, groupId := gid, kind := "member_added"
            message := "You were added to group " ++ gname, timestamp := now
            metadata := [("userId", uid), ("groupName", gname), ("addedBy", addedBy)] },
          rfl, ?_⟩
  dsimp only
  apply List.mem_append_left
  apply List.mem_append_right
  unfold notifyUser isOnlineIn at *
  cases h : lookupClient reg uid with
  | none => rw [h] at hon; cases hon
  | some c =>
    rw [h] at hon
    dsimp only at hon
    simp [hon]

/-- C9. The add-members endpoint performs no authorization: for every
state and request — in particular when `addedBy` is not a member at all
— the response status is never 403, every non-empty listed id ends up a
member of the group, and every such id that is online receives a
`member_added` notification. -/
theorem c9_add_members_no_authorization (gen : Nat → String) (now : Nat)
    (st : ServerState) (gid : String) (req : AddMembersReq) :
    (handleAddGroupMembers gen now st gid req).2.2.1 ≠ 403
    ∧ (∀ uid ∈ req.userIds, uid ≠ "" →
        ((handleAddGroupMembers gen now st gid req).1.groupMembers.any
          (fun r => r.group_id == gid && r.user_id == uid)) = true)
    ∧ (∀ uid ∈ req.userIds, uid ≠ "" → isOnlineIn st.clients uid = true →
        ∃ n : GroupNotification, n.kind = "member_added" ∧
          (uid, OutFrame.notification gid n) ∈
            (handleAddGroupMembers gen now st gid req).2.1) := by
  refine ⟨?_, ?_, ?_⟩
  · unfold handleAddGroupMembers
    dsimp only
    exact handleGetGroupMembers_status_ne _ _
  · intro uid hmem huid
    unfold handleAddGroupMembers
    dsimp only
    exact foldl_establish _ _
      (fun acc x h => (addMembersStep_mono gen now st.clients gid _ req.addedBy acc x _
        (default, OutFrame.groupDisconnect "" "")).1 h)
      uid (fun acc => addMembersStep_inserts gen now st.clients gid _ req.addedBy acc uid huid)
      req.userIds _ hmem
  · intro uid hmem huid hon
    unfold handleAddGroupMembers
    dsimp only
    have hP := foldl_establish
      (addMembersStep gen now st.clients gid
        (match st.groups.find? (fun g => g.id == gid) with
         | some g => g.name | none => "") req.addedBy)
      (fun acc => ∃ n : GroupNotification, n.kind = "member_added" ∧
        (uid, OutFrame.notification gid n) ∈ acc.2.1)
      (fun acc x h => by
        obtain ⟨n, hn, hw⟩ := h
        exact ⟨n, hn, (addMembersStep_mono gen now st.clients gid _ req.addedBy acc x
          (fun _ => true) _).2 hw⟩)
      uid
      (fun acc => addMembersStep_notifies gen now st.clients gid _ req.addedBy acc uid huid hon)
      req.userIds (st.groupMembers, [], 0) hmem
    exact hP

theorem updateMessageStatus_eq_map (store : List MsgRow) (i : String) (d rd : Bool) :
    updateMessageStatus store i d rd = store.map (updFun i d rd) := rfl

theorem updFun_idPreserving (i : String) (d rd : Bool) :
    idPreserving (updFun i d rd) := by
  intro r
  unfold updFun
  split <;> rfl

theorem updFun_deliveredPreserving (i : String) (rd : Bool) :
    deliveredPreserving (updFun i true rd) := by
  intro r h
  unfold updFun
  split <;> first | rfl | exact h

theorem idPreserving_comp {f g : MsgRow → MsgRow} (hf : idPreserving f)
    (hg : idPreserving g) : idPreserving (g ∘ f) :=
  fun r => (hg (f r)).trans (hf r)

theorem deliveredPreserving_comp {f g : MsgRow → MsgRow} (hf : deliveredPreserving f)
    (hg : deliveredPreserving g) : deliveredPreserving (g ∘ f) :=
  fun r h => hg _ (hf r h)

theorem mem_eq_of_uniqueIds {store : List MsgRow} (hu : uniqueIds store)
    {a b : MsgRow} (ha : a ∈ store) (hb : b ∈ store) (hid : a.id = b.id) :
    a = b := by
  induction store with
  | nil => cases ha
  | cons x xs ih =>
    obtain ⟨hx, hxs⟩ := List.pairwise_cons.mp hu
    rcases List.mem_cons.mp ha with rfl | ha' <;>
      rcases List.mem_cons.mp hb with rfl | hb'
    · rfl
    · exact absurd hid (hx b hb')
    · exact absurd hid.symm (hx a ha')
    · exact ih hxs ha' hb'

theorem delivered_mono_map_append {store : List MsgRow} (tail : List MsgRow)
    {f : MsgRow → MsgRow}
    (hf1 : idPreserving f) (hf2 : deliveredPreserving f)
    (htail : ∀ t ∈ tail, ∀ s ∈ store, t.id ≠ s.id)
    (hu : uniqueIds store) :
    ∀ r ∈ store, r.delivered = true →
      ∀ r' ∈ store.map f ++ tail, r'.id = r.id → r'.delivered = true := by
  intro r hr hd r' hr' hid
  rcases List.mem_append.mp hr' with hmap | ht
  · obtain ⟨s, hs, rfl⟩ := List.mem_map.mp hmap
    have hsid : s.id = r.id := (hf1 s).symm.trans hid
    have : s = r := mem_eq_of_uniqueIds hu hs hr hsid
    subst this
    exact hf2 s hd
  · exact absurd hid (htail r' ht r hr)

theorem delivered_mono_storeMessage_map {store : List MsgRow} {f : MsgRow → MsgRow}
    (hf1 : idPreserving f) (hf2 : deliveredPreserving f) (hu : uniqueIds store)
    (m : Msg) :
    ∀ r ∈ store, r.delivered = true →
      ∀ r' ∈ storeMessage (store.map f) m, r'.id = r.id → r'.delivered = true := by
  unfold storeMessage
  split
  · intro r hr hd r' hr' hid
    exact delivered_mono_map_append [] hf1 hf2
      (by intro t ht; cases ht) hu r hr hd r' (by simpa using hr') hid
  · next hany =>
    apply delivered_mono_map_append _ hf1 hf2 _ hu
    intro t ht s hs
    rw [List.mem_singleton] at ht
    subst ht
    intro hcontra
    apply hany
    refine List.any_eq_true.mpr ⟨f s, List.mem_map_of_mem f hs, ?_⟩
    have : (f s).id = s.id := hf1 s
    simp [msgToRow] at hcontra
    simp [this, ← hcontra, msgToRow]

theorem handleGroupMessage_messages (st : ServerState) (m : Msg) :
    (handleGroupMessage st m).1.messages = st.messages := by
  unfold handleGroupMessage
  dsimp only
  repeat' split
  all_goals rfl

theorem deliverMessage_store_shape (now : Nat) (reg : Registry)
    (store : List MsgRow) (m : Msg) :
    (deliverMessage now reg store m).2.1 = store ∨
    (deliverMessage now reg store m).2.1 = updateMessageStatus store m.id true true := by
  unfold deliverMessage
  split
  · split
    · dsimp only
      split
      · right; rfl
      · left; rfl
    · left; rfl
  · left; rfl

theorem applyOp_messages_shape (st : ServerState) (op : RouterOp) :
    ∃ f : MsgRow → MsgRow, idPreserving f ∧ deliveredPreserving f ∧
      ((applyOp st op).messages = st.messages.map f ∨
       ∃ m' : Msg, (applyOp st op).messages = storeMessage (st.messages.map f) m') := by
  have hid : idPreserving id := fun _ => rfl
  have hdel : deliveredPreserving id := fun _ h => h
  cases op with
  | initialSync now uid =>
    unfold applyOp sendAllMessages
    dsimp only
    cases h : lookupClient st.clients uid with
    | none =>
      refine ⟨id, hid, hdel, Or.inl ?_⟩
      simp
    | some c =>
      refine ⟨fun row => if row.to_id == uid && !row.delivered
                then { row with delivered := true } else row,
              ?_, ?_, Or.inl ?_⟩
      · intro r; dsimp only; split <;> rfl
      · intro r hdl; dsimp only; split <;> first | rfl | exact hdl
      · rfl
  | frame now fr =>
    cases fr with
    | signaling t a b =>
      refine ⟨id, hid, hdel, Or.inl ?_⟩
      dsimp only [applyOp, handleFrame]
      simp
    | chat m0 =>
      dsimp only [applyOp, handleFrame]
      unfold routeChat
      dsimp only
      split
      · exact ⟨id, hid, hdel, Or.inl (by
          rw [handleGroupMessage_messages]; simp)⟩
      · split
        · -- delivered branch
          dsimp only
          rcases deliverMessage_store_shape now st.clients
              (updateMessageStatus st.messages (setDefaults now m0).toId true false)
              { setDefaults now m0 with status := "delivered" } with hsh | hsh
          · refine ⟨updFun (setDefaults now m0).toId true false,
              updFun_idPreserving _ _ _, updFun_deliveredPreserving _ _, ?_⟩
            rw [← updateMessageStatus_eq_map]
            split
            · left; exact hsh
            · right; exact ⟨_, by rw [hsh]⟩
          · refine ⟨(updFun { setDefaults now m0 with status := "delivered" }.id true true)
                ∘ (updFun (setDefaults now m0).toId true false),
              idPreserving_comp (updFun_idPreserving _ _ _) (updFun_idPreserving _ _ _),
              deliveredPreserving_comp (updFun_deliveredPreserving _ _)
                (updFun_deliveredPreserving _ _),
              ?_⟩
            rw [← List.map_map, ← updateMessageStatus_eq_map, ← updateMessageStatus_eq_map]
            split
            · left; exact hsh
            · right; exact ⟨_, by rw [hsh]⟩
        · split
          · -- read branch
            dsimp only
            rcases deliverMessage_store_shape now st.clients
                (updateMessageStatus st.messages (setDefaults now m0).toId true true)
                { setDefaults now m0 with status := "read" } with hsh | hsh
            · refine ⟨updFun (setDefaults now m0).toId true true,
                updFun_idPreserving _ _ _, updFun_deliveredPreserving _ _, ?_⟩
              rw [← updateMessageStatus_eq_map]
              split
              · left; exact hsh
              · right; exact ⟨_, by rw [hsh]⟩
            · refine ⟨(updFun { setDefaults now m0 with status := "read" }.id true true)
                  ∘ (updFun (setDefaults now m0).toId true true),
                idPreserving_comp (updFun_idPreserving _ _ _) (updFun_idPreserving _ _ _),
                deliveredPreserving_comp (updFun_deliveredPreserving _ _)
                  (updFun_deliveredPreserving _ _),
                ?_⟩
              rw [← List.map_map, ← updateMessageStatus_eq_map, ← updateMessageStatus_eq_map]
              split
              · left; exact hsh
              · right; exact ⟨_, by rw [hsh]⟩
          · split
            · -- status_update branch
              exact ⟨id, hid, hdel, Or.inl (by simp)⟩
            · -- default branch
              dsimp only
              rcases deliverMessage_store_shape now st.clients st.messages
                  (setDefaults now m0) with hsh | hsh
              · refine ⟨id, hid, hdel, ?_⟩
                rw [List.map_id]
                split
                · left; exact hsh
                · right; exact ⟨_, by rw [hsh]⟩
              · refine ⟨updFun (setDefaults now m0).id true true,
                  updFun_idPreserving _ _ _, updFun_deliveredPreserving _ _, ?_⟩
                rw [← updateMessageStatus_eq_map]
                split
                · left; exact hsh
                · right; exact ⟨_, by rw [hsh]⟩

/-- C2, amended. The delivered flag alone is monotone non-decreasing:
across any single router operation (any read-loop frame or the
initial-sync flag mutation), a stored row whose delivered flag is true
keeps it true in the row with the same id afterwards. -/
theorem c2_delivered_flag_monotone (st : ServerState) (op : RouterOp)
    (hu : uniqueIds st.messages) :
    ∀ r ∈ st.messages, r.delivered = true →
      ∀ r' ∈ (applyOp st op).messages, r'.id = r.id → r'.delivered = true := by
  obtain ⟨f, hf1, hf2, hcase⟩ := applyOp_messages_shape st op
  intro r hr hd r' hr' hid
  rcases hcase with heq | ⟨m', heq⟩
  · rw [heq] at hr'
    exact delivered_mono_map_append [] hf1 hf2
      (by intro t ht; cases ht) hu r hr hd r' (by simpa using hr') hid
  · rw [heq] at hr'
    exact delivered_mono_storeMessage_map hf1 hf2 hu m' r hr hd r' hr' hid

theorem adminActionField_preserves {k : String} {f : MemberRow → MemberRow}
    (hk : k ≠ "demote") (hf : adminActionField k = some f) :
    ∀ r : MemberRow, (f r).group_id = r.group_id ∧
      (r.role = "admin" → (f r).role = "admin") := by
  unfold adminActionField at hf
  split_ifs at hf with h1 h2 h3 h4 h5 h6
  · cases hf; exact fun r => ⟨rfl, fun h => h⟩
  · cases hf; exact fun r => ⟨rfl, fun h => h⟩
  · cases hf; exact fun r => ⟨rfl, fun h => h⟩
  · cases hf; exact fun r => ⟨rfl, fun h => h⟩
  · cases hf; exact fun r => ⟨rfl, fun _ => rfl⟩
  · exact absurd (by simpa using h6) hk

theorem hasAdmin_memberUpdate {members : List MemberRow} {gid : String}
    {f : MemberRow → MemberRow} (tgid tuid : String)
    (hf : ∀ r : MemberRow, (f r).group_id = r.group_id ∧
      (r.role = "admin" → (f r).role = "admin"))
    (h : hasAdmin members gid) :
    hasAdmin (memberUpdate members tgid tuid f) gid := by
  obtain ⟨r, hr, hgid, hrole⟩ := h
  refine ⟨if r.group_id == tgid && r.user_id == tuid then f r else r,
    List.mem_map_of_mem _ hr, ?_, ?_⟩
  · split
    · exact (hf r).1.trans hgid
    · exact hgid
  · split
    · exact (hf r).2 hrole
    · exact hrole

theorem mem_key_eq_of_uniqueMemberKeys {members : List MemberRow}
    (hu : uniqueMemberKeys members) {a b : MemberRow} (ha : a ∈ members)
    (hb : b ∈ members) (hg : a.group_id = b.group_id)
    (hui : a.user_id = b.user_id) : a = b := by
  induction members with
  | nil => cases ha
  | cons x xs ih =>
    obtain ⟨hx, hxs⟩ := List.pairwise_cons.mp hu
    rcases List.mem_cons.mp ha with rfl | ha' <;>
      rcases List.mem_cons.mp hb with rfl | hb'
    · rfl
    · exact absurd ⟨hg, hui⟩ (hx b hb')
    · exact absurd ⟨hg.symm, hui.symm⟩ (hx a ha')
    · exact ih hxs ha' hb'

theorem adminAction_preserves_hasAdmin (gen : Nat → String) (now : Nat)
    (st : ServerState) (gid : String) (a : AdminAction) (hk : a.kind ≠ "demote")
    (hadm : hasAdmin st.groupMembers gid) :
    hasAdmin (handleAdminAction gen now st gid a).1.groupMembers gid := by
  unfold handleAdminAction
  dsimp only
  split
  · exact hadm
  · split
    · exact hadm
    · next f hf =>
      exact hasAdmin_memberUpdate gid a.targetUserID
        (adminActionField_preserves hk hf) hadm

theorem countP_not_add {α : Type} (q : α → Bool) (l : List α) :
    l.countP q + l.countP (fun a => !(q a)) = l.length := by
  induction l with
  | nil => rfl
  | cons x xs ih =>
    cases hx : q x
    · rw [List.countP_cons_of_neg _ _ (by simp [hx]),
        List.countP_cons_of_pos _ _ (by simp [hx]), List.length_cons]
      omega
    · rw [List.countP_cons_of_pos _ _ hx,
        List.countP_cons_of_neg _ _ (by simp [hx]), List.length_cons]
      omega

theorem leaveGroup_preserves_hasAdmin (gen : Nat → String) (now : Nat) (st : ServerState)
    (gid uid : String) (hkeys : uniqueMemberKeys st.groupMembers)
    (hadm : hasAdmin st.groupMembers gid) :
    hasAdmin (handleLeaveGroup gen now st gid uid).1.groupMembers gid := by
  unfold handleLeaveGroup
  dsimp only
  split
  · exact hadm
  · next hguard =>
    obtain ⟨r, hr, hgid, hrole⟩ := hadm
    by_cases huid : r.user_id = uid
    · -- the leaver holds an admin row; the guard then forces a second admin
      cases hfind : st.groupMembers.find?
          (fun x => x.group_id == gid && x.user_id == uid) with
      | none =>
        exact absurd (by simp [hgid, huid] :
            (r.group_id == gid && r.user_id == uid) = true)
          (by simpa using List.find?_eq_none.mp hfind r hr)
      | some x0 =>
        have hx0mem : x0 ∈ st.groupMembers := List.mem_of_find?_eq_some hfind
        have hx0p := List.find?_some hfind
        have hx0g : x0.group_id = gid := by
          have := Bool.and_elim_left hx0p
          simpa using this
        have hx0u : x0.user_id = uid := by
          have := Bool.and_elim_right hx0p
          simpa using this
        have hx0r : x0 = r :=
          mem_key_eq_of_uniqueMemberKeys hkeys hx0mem hr
            (hx0g.trans hgid.symm) (hx0u.trans huid.symm)
        have hcount : ¬(((st.groupMembers.filter
            (fun x => x.group_id == gid && x.role == "admin")).length == 1) = true) := by
          intro hc
          apply hguard
          rw [hfind]
          simp [hc, hx0r, hrole]
        set A := st.groupMembers.filter
          (fun x => x.group_id == gid && x.role == "admin") with hA
        have hrA : r ∈ A := List.mem_filter.mpr ⟨hr, by simp [hgid, hrole]⟩
        have hlen1 : 0 < A.length := List.length_pos_of_mem hrA
        have hne1 : A.length ≠ 1 := fun h => hcount (by simp [h])
        have hlen2 : 2 ≤ A.length := by omega
        have hcle : A.countP (fun x => x.user_id == uid) ≤ 1 := by
          apply countP_le_one
          have hpw : A.Pairwise
              (fun a b => ¬(a.group_id = b.group_id ∧ a.user_id = b.user_id)) :=
            hkeys.filter _
          apply List.Pairwise.imp_of_mem ?_ hpw
          intro a b hamem hbmem hne hqa hqb
          have hag : a.group_id = gid := by
            have := Bool.and_elim_left (List.mem_filter.mp hamem).2
            simpa using this
          have hbg : b.group_id = gid := by
            have := Bool.and_elim_left (List.mem_filter.mp hbmem).2
            simpa using this
          exact hne ⟨hag.trans hbg.symm, by
            have ha' : a.user_id = uid := by simpa using hqa
            have hb' : b.user_id = uid := by simpa using hqb
            rw [ha', hb']⟩
        have hpos : 0 < A.countP (fun x => !(x.user_id == uid)) := by
          have := countP_not_add (fun x : MemberRow => x.user_id == uid) A
          omega
        obtain ⟨r2, hr2A, hq2⟩ := List.countP_pos_iff.mp hpos
        have hr2mem : r2 ∈ st.groupMembers := (List.mem_filter.mp hr2A).1
        have hr2g : r2.group_id = gid := by
          have := Bool.and_elim_left (List.mem_filter.mp hr2A).2
          simpa using this
        have hr2role : r2.role = "admin" := by
          have := Bool.and_elim_right (List.mem_filter.mp hr2A).2
          simpa using this
        have hr2u : ¬(r2.user_id = uid) := by simpa using hq2
        exact ⟨r2, List.mem_filter.mpr ⟨hr2mem, by simp [hr2u]⟩, hr2g, hr2role⟩
    · exact ⟨r, List.mem_filter.mpr ⟨hr, by simp [huid]⟩, hgid, hrole⟩

/-- C1. B sends the read receipt for the delivered message `m1`. The
receipt envelope is forwarded to A (the claim's second half), but the
persisted row for `m1` is left completely unchanged — still
`read_status = false` — because `updateMessageStatus` is called with
`msg.ToID` (the user id "A") and then with the receipt's own id
"read_m1", and no row carries either id. The claim's mutation of the
`m1` row never happens. -/
theorem c1_read_receipt_leaves_original_row_unchanged :
    (handleFrame 300 c1State (.chat c1ReadReceipt)).2
        = [("A", .chat c1ReadReceipt)]
    ∧ (handleFrame 300 c1State (.chat c1ReadReceipt)).1.messages
        = c1State.messages
    ∧ ((c1State.messages.find? (fun r => r.id == "m1")).map MsgRow.read_status
        = some false) := by decide

/-- C2, counterexample. A delivered receipt reaching a row in state
`(delivered, readStatus) = (true, true)` rewrites it to `(true, false)`:
the router's delivered branch calls `updateMessageStatus(toId, true,
false)`, unconditionally clearing `read_status`. The pair is therefore
not monotone non-decreasing. -/
theorem c2_pair_monotonicity_counterexample :
    ((c2State.messages.find? (fun r => r.id == "m1")).map
        (fun r => (r.delivered, r.read_status)) = some (true, true))
    ∧ (((applyOp c2State (RouterOp.frame 1 (Frame.chat c2Receipt))).messages.find?
        (fun r => r.id == "m1")).map (fun r => (r.delivered, r.read_status))
        = some (true, false)) := by decide

/-- C3, counterexample. The sole admin of a one-member group demotes
themself: the action is authorized (the performer is an admin) and
succeeds with status 200, leaving a non-empty group with no admin. The
`demote` branch has no last-admin guard. -/
theorem c3_sole_admin_demote_counterexample :
    (handleAdminAction (fun _ => "N") 5 c3State "GROUP_X" c3Demote).2.2 = 200
    ∧ ((handleAdminAction (fun _ => "N") 5 c3State "GROUP_X" c3Demote).1.groupMembers.any
        (fun r => r.group_id == "GROUP_X")) = true
    ∧ ((handleAdminAction (fun _ => "N") 5 c3State "GROUP_X" c3Demote).1.groupMembers.any
        (fun r => r.group_id == "GROUP_X" && r.role == "admin")) = false := by decide

/-- C4. An inbound `webrtc_signaling` frame addressed to the online user
B produces no write at all and leaves the state untouched (so no store
row is created, but B also never receives the envelope): the read loop
recognizes the frame and `continue`s, and `handleSignalingMessage` —
which would forward it, as the second conjunct shows — has no caller. -/
theorem c4_signaling_frame_dropped :
    handleFrame 1 c4State (.signaling "offer" "A" "B") = (c4State, [])
    ∧ handleSignalingMessage c4State.clients "offer" "A" "B"
        = [("B", .signaling "offer" "A" "B")] := by decide

/-- C5. User A connects with session handle 1, reconnects with handle 2
(the registration overwrites, as the first conjunct shows), and then the
superseded session's read loop exits and runs the cleanup. The cleanup
checks only that an entry exists under the id "A" and deletes it, so the
new session's registration is removed: the registry no longer maps "A"
to the live handle-2 session. -/
theorem c5_superseded_cleanup_deletes_new_registration :
    lookupClient (registerClient (registerClient [] "A" 1) "A" 2) "A"
        = some { id := "A", handle := 2, isOnline := true }
    ∧ lookupClient
        (cleanupClient (registerClient (registerClient [] "A" 1) "A" 2) "A") "A"
        = none := by decide

/-- C6, counterexample. The banned member C does appear in the result of
the list-members endpoint: the handler's SELECT has no `is_banned`
filter (unlike the fan-out and notification queries). -/
theorem c6_banned_member_listed_counterexample :
    (c6State.groupMembers.any
        (fun r => r.group_id == "GROUP_Z" && r.user_id == "C" && r.is_banned)) = true
    ∧ ((handleGetGroupMembers c6State "GROUP_Z").2.any
        (fun d => d.row.user_id == "C")) = true := by decide

/-- C3, amended. Sole-admin preservation holds for leave requests (the
sole-admin guard rejects the only admin's leave; with unique membership
keys a second admin survives any other leave) and for every admin action
other than `demote`; the counterexample shows `demote` can strip the
last admin from a non-empty group. -/
theorem c3_admin_preserved_except_demote (gen : Nat → String) (now : Nat)
    (st : ServerState) (gid : String) :
    (∀ a : AdminAction, a.kind ≠ "demote" →
        hasAdmin st.groupMembers gid →
        hasAdmin (handleAdminAction gen now st gid a).1.groupMembers gid)
    ∧ (∀ uid : String, uniqueMemberKeys st.groupMembers →
        hasAdmin st.groupMembers gid →
        hasAdmin (handleLeaveGroup gen now st gid uid).1.groupMembers gid) :=
  ⟨fun a hk hadm => adminAction_preserves_hasAdmin gen now st gid a hk hadm,
   fun uid hkeys hadm => leaveGroup_preserves_hasAdmin gen now st gid uid hkeys hadm⟩

/-- Witness for C3: in a two-admin group, admin A's leave goes through
and an admin remains. -/
theorem c3_admin_preserved_except_demote_witness :
    hasAdmin (handleLeaveGroup (fun _ => "N") 3 c3wState "GROUP_Y" "A").1.groupMembers
      "GROUP_Y" :=
  (c3_admin_preserved_except_demote (fun _ => "N") 3 c3wState "GROUP_Y").2 "A"
    (by unfold uniqueMemberKeys; decide) (by unfold hasAdmin; decide)

/-- Witness for C2: the delivered receipt targeting the delivered row
`n1` leaves its delivered flag true. -/
theorem c2_delivered_flag_monotone_witness : c2wRow.delivered = true :=
  c2_delivered_flag_monotone c2wState c2wOp (by unfold uniqueIds; decide)
    c2wRow (by decide) (by decide) c2wRow (by decide) (by decide)

/-- Witness for C6: the listing of `GROUP_Z` succeeds and contains the
banned row of user C. -/
theorem c6_member_listing_includes_all_rows_witness :
    (handleGetGroupMembers c6State "GROUP_Z").1 = 200
    ∧ ∃ d ∈ (handleGetGroupMembers c6State "GROUP_Z").2, d.row = c6BannedRow :=
  c6_member_listing_includes_all_rows c6State "GROUP_Z" c6BannedRow
    (by decide) (by decide) (by decide)

/-- Witness for C7: re-inserting id `k1` with different fields leaves
the store unchanged with exactly one `k1` row. -/
theorem c7_store_insert_idempotent_witness :
    storeMessage [c7wRow] c7wMsg = [c7wRow]
    ∧ uniqueIds (storeMessage [c7wRow] c7wMsg)
    ∧ (storeMessage [c7wRow] c7wMsg).countP (fun r => r.id == c7wMsg.id) = 1 :=
  ⟨(c7_store_insert_idempotent [c7wRow] c7wMsg).1 ⟨c7wRow, by decide, by decide⟩,
   (c7_store_insert_idempotent [c7wRow] c7wMsg).2.1 (by unfold uniqueIds; decide),
   (c7_store_insert_idempotent [c7wRow] c7wMsg).2.2 (by unfold uniqueIds; decide)⟩

/-- Witness for C9: the non-member `Z` adds `C` to `GROUP_W`; the
response is not 403 and `C` is a member afterwards. -/
theorem c9_add_members_no_authorization_witness :
    (handleAddGroupMembers (fun _ => "N") 7 c9wState "GROUP_W" c9wReq).2.2.1 ≠ 403
    ∧ ((handleAddGroupMembers (fun _ => "N") 7 c9wState "GROUP_W"
        c9wReq).1.groupMembers.any
        (fun r => r.group_id == "GROUP_W" && r.user_id == "C")) = true :=
  ⟨(c9_add_members_no_authorization (fun _ => "N") 7 c9wState "GROUP_W" c9wReq).1,
   (c9_add_members_no_authorization (fun _ => "N") 7 c9wState "GROUP_W" c9wReq).2.1
     "C" (by decide) (by decide)⟩
